import Mathlib

/-!
Verification of the quadrature decoding logic of
`drivers/input/misc/rotary_encoder.c` (GPIO rotary encoder driver).

The file shallowly embeds the decoder: the `rotary_encoder` struct becomes
the `Encoder` structure, each interrupt handler becomes a function from an
`Encoder` and the sampled state value to the updated `Encoder` together
with the list of input events it reports.  Machine integers (`unsigned int`,
`u32`) are modelled as `Nat` with explicit reduction mod `2^32` where the C
arithmetic can wrap, and the store into the `signed char dir` field is
modelled by an explicit conversion `toS8`.  The one operation of the decode
path that C leaves undefined — `pos %= encoder->steps` with `steps == 0` —
makes `rotary_encoder_report_event` return `Option`, `none` standing for
that division by zero.
-/

/-- `2^32`, the modulus of the driver's `unsigned int` arithmetic. -/
def U32 : Nat := 4294967296

/-- Wrapping `unsigned int` addition. -/
def u32add (a b : Nat) : Nat := (a + b) % U32

/-- Wrapping `unsigned int` subtraction (`a - b` in C unsigned arithmetic,
for operands already reduced mod `2^32`). -/
def u32sub (a b : Nat) : Nat := (a + (U32 - b % U32)) % U32

/-- Conversion of an `unsigned int` value to `signed char` (two's complement,
as on every platform the kernel supports): reduce mod 256 and reinterpret. -/
def toS8 (n : Nat) : Int :=
  if n % 256 < 128 then (n % 256 : Nat) else (n % 256 : Nat) - 256

/-- The decoder-relevant fields of `struct rotary_encoder`.
`input`, `poll_dev`, the mutex, the gpio descriptors and the irq table are
external resources; the mutex discipline is modelled separately by the
`lock_trace` definitions below. -/
structure Encoder where
  steps : Nat
  axis : Nat
  relative_axis : Bool
  rollover : Bool
  pos : Nat
  armed : Bool
  dir : Int
  last_stable : Nat
deriving Repr, DecidableEq

/-- An event reported to the input subsystem:
`input_report_rel` or `input_report_abs` (the `input_sync` flushes are not
recorded; one sync follows each report in the source). -/
inductive Ev where
  | rel (axis : Nat) (value : Int)
  | abs (axis : Nat) (value : Nat)
deriving Repr, DecidableEq

/-- `rotary_encoder_get_state`: fold the gpio levels into a binary value,
converting from gray encoding (each level is inverted when the running
value is odd), keeping only the low two bits. -/
def rotary_encoder_get_state (lines : List Bool) : Nat :=
  (lines.foldl
    (fun ret v =>
      let val := if ret % 2 = 1 then !v else v
      u32add (u32add ret ret) (if val then 1 else 0))
    0) % 4

/-- `rotary_encoder_get_gpios_state`: the raw (non gray-converted)
concatenation of the gpio levels, used by the absolute decoder. -/
def rotary_encoder_get_gpios_state (lines : List Bool) : Nat :=
  lines.foldl
    (fun ret v => u32add (u32add ret ret) (if v then 1 else 0))
    0

/-- `rotary_encoder_report_event`.  In relative-axis mode it reports the
current `dir` and mutates nothing.  In absolute-axis mode it advances `pos`:
counter-clockwise (`dir < 0`) first adds `steps` when `rollover` is set and
then decrements the value if nonzero; clockwise it increments when
`rollover` is set or `pos < steps`; finally, when `rollover` is set, the
value is reduced `% steps` — the C expression `pos %= encoder->steps` is a
division by zero when `steps = 0`, returned here as `none`. -/
def rotary_encoder_report_event (e : Encoder) : Option (Encoder × List Ev) :=
  if e.relative_axis then
    some (e, [Ev.rel e.axis e.dir])
  else
    let pos := e.pos
    let pos :=
      if e.dir < 0 then
        let pos := if e.rollover then u32add pos e.steps else pos
        if pos ≠ 0 then pos - 1 else pos
      else
        if e.rollover ∨ pos < e.steps then u32add pos 1 else pos
    if e.rollover then
      if e.steps = 0 then none
      else some ({ e with pos := pos % e.steps }, [Ev.abs e.axis (pos % e.steps)])
    else
      some ({ e with pos := pos }, [Ev.abs e.axis pos])

/-- `rotary_encoder_irq`, the full-period handler, applied to the sampled
state value (the source samples `rotary_encoder_get_state` itself, so the
value is always `< 4`; the `switch` has no `default`, so any other value
falls through unchanged). -/
def rotary_encoder_irq (e : Encoder) (state : Nat) : Option (Encoder × List Ev) :=
  if state = 0 then
    if e.armed then
      (rotary_encoder_report_event e).map (fun p => ({ p.1 with armed := false }, p.2))
    else
      some (e, [])
  else if state = 1 ∨ state = 3 then
    if e.armed then
      some ({ e with dir := 2 - (state : Int) }, [])
    else
      some (e, [])
  else if state = 2 then
    some ({ e with armed := true }, [])
  else
    some (e, [])

/-- The value the half-period handler stores into `dir` on an odd sample:
`((encoder->last_stable - state + 1) % 4) - 1` computed in `unsigned int`
arithmetic, then converted by the store into the `signed char dir` field. -/
def half_dir (last_stable state : Nat) : Int :=
  toS8 (u32sub ((u32add (u32sub last_stable state) 1) % 4) 1)

/-- `rotary_encoder_half_period_irq`: on an odd sample only `dir` is
updated; on an even sample that differs from `last_stable` an event is
reported and `last_stable` is updated. -/
def rotary_encoder_half_period_irq (e : Encoder) (state : Nat) :
    Option (Encoder × List Ev) :=
  if state % 2 = 1 then
    some ({ e with dir := half_dir e.last_stable state }, [])
  else
    if state ≠ e.last_stable then
      (rotary_encoder_report_event e).map
        (fun p => ({ p.1 with last_stable := state }, p.2))
    else
      some (e, [])

/-- `rotary_encoder_quarter_period_irq`: a sample adjacent (mod 4) to
`last_stable` sets `dir` to `±1` and reports; a non-adjacent sample reports
nothing (`goto out`); in every case `last_stable` is set to the sample. -/
def rotary_encoder_quarter_period_irq (e : Encoder) (state : Nat) :
    Option (Encoder × List Ev) :=
  if (u32add e.last_stable 1) % 4 = state then
    (rotary_encoder_report_event { e with dir := 1 }).map
      (fun p => ({ p.1 with last_stable := state }, p.2))
  else if e.last_stable = (u32add state 1) % 4 then
    (rotary_encoder_report_event { e with dir := -1 }).map
      (fun p => ({ p.1 with last_stable := state }, p.2))
  else
    some ({ e with last_stable := state }, [])

/-- `rotary_absolute_encoder_irq`, data behaviour only (the mutex calls are
modelled by `rotary_absolute_encoder_irq_lock_trace` below): a raw gpio
state differing from `last_stable` is reported as an absolute position. -/
def rotary_absolute_encoder_irq (e : Encoder) (state : Nat) : Encoder × List Ev :=
  if state ≠ e.last_stable then
    ({ e with last_stable := state }, [Ev.abs e.axis state])
  else
    (e, [])

/-- Run one of the `Option`-valued handlers over a list of successive
sampled states, concatenating the reported events. -/
def runSeq (step : Encoder → Nat → Option (Encoder × List Ev)) (e : Encoder) :
    List Nat → Option (Encoder × List Ev)
  | [] => some (e, [])
  | s :: rest =>
    match step e s with
    | none => none
    | some (e₁, evs) => (runSeq step e₁ rest).map (fun p => (p.1, evs ++ p.2))

/-- A mutex operation appearing in a handler body. -/
inductive LockOp where
  | lock
  | unlock
deriving Repr, DecidableEq

/-- The mutex operations executed by `rotary_encoder_irq`, in order; they
are unconditional in the source (`mutex_lock` on entry, `mutex_unlock`
before return). -/
def rotary_encoder_irq_lock_trace : List LockOp := [LockOp.lock, LockOp.unlock]

/-- The mutex operations executed by `rotary_encoder_half_period_irq`. -/
def rotary_encoder_half_period_irq_lock_trace : List LockOp :=
  [LockOp.lock, LockOp.unlock]

/-- The mutex operations executed by `rotary_encoder_quarter_period_irq`
(the `goto out` path still reaches the `mutex_unlock`). -/
def rotary_encoder_quarter_period_irq_lock_trace : List LockOp :=
  [LockOp.lock, LockOp.unlock]

/-- The mutex operations executed by `rotary_absolute_encoder_irq`: the
source calls `mutex_lock(&encoder->access_mutex)` at entry and then calls
`mutex_lock` AGAIN where the other handlers call `mutex_unlock`. -/
def rotary_absolute_encoder_irq_lock_trace : List LockOp :=
  [LockOp.lock, LockOp.lock]

/-- One step of a non-recursive mutex: `some b` is a live thread with the
lock held iff `b`; `none` means the thread blocked forever (relocking a
mutex it already holds) or performed an undefined unlock. -/
def mutexStep : Option Bool → LockOp → Option Bool
  | some false, LockOp.lock => some true
  | some true, LockOp.lock => none
  | some true, LockOp.unlock => some false
  | some false, LockOp.unlock => none
  | none, _ => none

/-- Run a handler's mutex operations starting from a free lock.  A balanced
handler ends in `some false` (returned, lock free again). -/
def runLockTrace (ops : List LockOp) : Option Bool :=
  ops.foldl mutexStep (some false)

/-- The decode strategies selectable at probe time. -/
inductive DecodeMode where
  | FullPeriod
  | HalfPeriod
  | QuarterPeriod
  | Absolute
deriving Repr, DecidableEq

/-- The handler-selection logic of `rotary_encoder_probe`, from the
`ndescs < 2` check onward: fewer than two gpio lines is `-EINVAL`
(modelled `none`) before `absolute_encoder` is even consulted; with
`absolute_encoder` set the absolute handler is chosen and
`steps_per_period` is ignored; otherwise
`steps_per_period >> (ndescs - 2)` selects quarter/half/full period and
any other value is `-EINVAL`. -/
def rotary_encoder_probe_select (ndescs : Nat) (absolute_encoder : Bool)
    (steps_per_period : Nat) : Option DecodeMode :=
  if ndescs < 2 then
    none
  else if absolute_encoder then
    some DecodeMode.Absolute
  else
    match steps_per_period >>> (ndescs - 2) with
    | 4 => some DecodeMode.QuarterPeriod
    | 2 => some DecodeMode.HalfPeriod
    | 1 => some DecodeMode.FullPeriod
    | _ => none

/-- A freshly probed relative-axis encoder in full-period mode: the struct
is `devm_kzalloc`ed, so `pos = 0`, `armed = false`, `dir = 0`,
`last_stable = 0`. -/
def encFresh : Encoder :=
  { steps := 0, axis := 0, relative_axis := true, rollover := false,
    pos := 0, armed := false, dir := 0, last_stable := 0 }

/-- `encFresh` after an armed transition (`state = 0x2` seen). -/
def encArmed : Encoder := { encFresh with armed := true }

/-- An absolute-axis encoder with the given rollover flag, step count,
position and direction (the other fields do not enter
`rotary_encoder_report_event`). -/
def encAbs (ro : Bool) (steps pos : Nat) (d : Int) : Encoder :=
  { steps := steps, axis := 0, relative_axis := false, rollover := ro,
    pos := pos, armed := false, dir := d, last_stable := 0 }

/-- Modelled from the spec: the absolute-axis position update of §4.4 /
claim C6 stated in the specification's own words (add `steps` first when
`rollover`, then decrement if nonzero, for direction −1; increment iff
`rollover` or `position < steps`, for direction +1; finally reduce
`mod steps` when `rollover`), as the plain-arithmetic reference the code's
`rotary_encoder_report_event` is compared against. -/
def report_pos_spec (rollover : Bool) (steps pos : Nat) (dir : Int) : Nat :=
  let p :=
    if dir = -1 then
      let p := if rollover then pos + steps else pos
      if p ≠ 0 then p - 1 else p
    else
      if rollover ∨ pos < steps then pos + 1 else pos
  if rollover then p % steps else p

/-- Two 2-bit states are adjacent on the mod-4 quadrature cycle. -/
def adj4 (a b : Nat) : Prop := (a + 1) % 4 = b ∨ (b + 1) % 4 = a

instance (a b : Nat) : Decidable (adj4 a b) := by
  unfold adj4; infer_instance

/-! ### Helper lemmas -/

lemma u32add_eq (a b : Nat) (h : a + b < U32) : u32add a b = a + b := by
  unfold u32add
  exact Nat.mod_eq_of_lt h

lemma u32add_one_mod_four_ne (s : Nat) : (u32add s 1) % 4 ≠ s := by
  unfold u32add U32
  omega

/-- `rotary_encoder_report_event` reports exactly one event whenever it
returns at all. -/
lemma report_event_ne_nil (e e' : Encoder) (evs : List Ev)
    (h : rotary_encoder_report_event e = some (e', evs)) : evs ≠ [] := by
  unfold rotary_encoder_report_event at h
  by_cases hr : e.relative_axis = true
  · simp [hr] at h
    simp [h.2.symm]
  · simp [hr] at h
    by_cases hro : e.rollover = true
    · simp [hro] at h
      by_cases hs : e.steps = 0
      · simp [hs] at h
      · simp [hs] at h
        simp [h.2.symm]
    · simp [Bool.not_eq_true] at hro
      simp [hro] at h
      simp [h.2.symm]

/-- `rotary_encoder_report_event` never touches `last_stable`. -/
lemma report_event_last_stable (e e' : Encoder) (evs : List Ev)
    (h : rotary_encoder_report_event e = some (e', evs)) :
    e'.last_stable = e.last_stable := by
  unfold rotary_encoder_report_event at h
  by_cases hr : e.relative_axis = true
  · simp [hr] at h
    simp [h.1.symm]
  · simp [hr] at h
    by_cases hro : e.rollover = true
    · simp [hro] at h
      by_cases hs : e.steps = 0
      · simp [hs] at h
      · simp [hs] at h
        simp [h.1.symm]
    · simp [Bool.not_eq_true] at hro
      simp [hro] at h
      simp [h.1.symm]

/-- Second delivery of the same sample to the full-period handler is a
no-op emitting nothing. -/
lemma full_idem (e e₁ : Encoder) (s : Nat) (evs : List Ev)
    (h : rotary_encoder_irq e s = some (e₁, evs)) :
    rotary_encoder_irq e₁ s = some (e₁, []) := by
  unfold rotary_encoder_irq at h ⊢
  by_cases h0 : s = 0
  · subst h0
    rw [if_pos rfl] at h ⊢
    by_cases ha : e.armed = true
    · rw [if_pos ha] at h
      rcases hr : rotary_encoder_report_event e with _ | p
      · rw [hr] at h
        simp at h
      · rw [hr] at h
        simp only [Option.map_some', Option.some.injEq, Prod.mk.injEq] at h
        obtain ⟨rfl, rfl⟩ := h
        simp
    · rw [if_neg ha] at h
      simp only [Option.some.injEq, Prod.mk.injEq] at h
      obtain ⟨rfl, rfl⟩ := h
      rw [if_neg ha]
  · by_cases h13 : s = 1 ∨ s = 3
    · rw [if_neg h0, if_pos h13] at h ⊢
      by_cases ha : e.armed = true
      · rw [if_pos ha] at h
        simp only [Option.some.injEq, Prod.mk.injEq] at h
        obtain ⟨rfl, rfl⟩ := h
        simp [ha]
      · rw [if_neg ha] at h
        simp only [Option.some.injEq, Prod.mk.injEq] at h
        obtain ⟨rfl, rfl⟩ := h
        rw [if_neg ha]
    · by_cases h2 : s = 2
      · rw [if_neg h0, if_neg h13, if_pos h2] at h ⊢
        simp only [Option.some.injEq, Prod.mk.injEq] at h
        obtain ⟨rfl, rfl⟩ := h
        simp
      · rw [if_neg h0, if_neg h13, if_neg h2] at h
        simp only [Option.some.injEq, Prod.mk.injEq] at h
        obtain ⟨rfl, rfl⟩ := h
        rw [if_neg h0, if_neg h13, if_neg h2]

/-- Second delivery of the same sample to the half-period handler is a
no-op emitting nothing. -/
lemma half_idem (e e₁ : Encoder) (s : Nat) (evs : List Ev)
    (h : rotary_encoder_half_period_irq e s = some (e₁, evs)) :
    rotary_encoder_half_period_irq e₁ s = some (e₁, []) := by
  unfold rotary_encoder_half_period_irq at h ⊢
  by_cases hodd : s % 2 = 1
  · rw [if_pos hodd] at h ⊢
    simp only [Option.some.injEq, Prod.mk.injEq] at h
    obtain ⟨rfl, rfl⟩ := h
    rfl
  · rw [if_neg hodd] at h ⊢
    by_cases hne : s ≠ e.last_stable
    · rw [if_pos hne] at h
      rcases hr : rotary_encoder_report_event e with _ | p
      · rw [hr] at h
        simp at h
      · rw [hr] at h
        simp only [Option.map_some', Option.some.injEq, Prod.mk.injEq] at h
        obtain ⟨rfl, rfl⟩ := h
        simp
    · rw [if_neg hne] at h
      simp only [Option.some.injEq, Prod.mk.injEq] at h
      obtain ⟨rfl, rfl⟩ := h
      rw [if_neg hne]

/-- The quarter-period handler always leaves `last_stable` equal to the
sample it just consumed (also on the no-event `goto out` path). -/
lemma quarter_sets_last (e e₁ : Encoder) (s : Nat) (evs : List Ev)
    (h : rotary_encoder_quarter_period_irq e s = some (e₁, evs)) :
    e₁.last_stable = s := by
  unfold rotary_encoder_quarter_period_irq at h
  by_cases h1 : (u32add e.last_stable 1) % 4 = s
  · rw [if_pos h1] at h
    rcases hr : rotary_encoder_report_event { e with dir := 1 } with _ | p
    · rw [hr] at h
      simp at h
    · rw [hr] at h
      simp only [Option.map_some', Option.some.injEq, Prod.mk.injEq] at h
      obtain ⟨rfl, rfl⟩ := h
      rfl
  · rw [if_neg h1] at h
    by_cases h2 : e.last_stable = (u32add s 1) % 4
    · rw [if_pos h2] at h
      rcases hr : rotary_encoder_report_event { e with dir := -1 } with _ | p
      · rw [hr] at h
        simp at h
      · rw [hr] at h
        simp only [Option.map_some', Option.some.injEq, Prod.mk.injEq] at h
        obtain ⟨rfl, rfl⟩ := h
        rfl
    · rw [if_neg h2] at h
      simp only [Option.some.injEq, Prod.mk.injEq] at h
      obtain ⟨rfl, rfl⟩ := h
      rfl

/-- Second delivery of the same sample to the quarter-period handler is a
no-op emitting nothing. -/
lemma quarter_idem (e e₁ : Encoder) (s : Nat) (evs : List Ev)
    (h : rotary_encoder_quarter_period_irq e s = some (e₁, evs)) :
    rotary_encoder_quarter_period_irq e₁ s = some (e₁, []) := by
  have hls : e₁.last_stable = s := quarter_sets_last e e₁ s evs h
  obtain ⟨st, ax, ra, ro, po, ar, di, ls⟩ := e₁
  simp only at hls
  subst hls
  unfold rotary_encoder_quarter_period_irq
  rw [if_neg (u32add_one_mod_four_ne _)]
  rw [if_neg (fun hh => u32add_one_mod_four_ne _ hh.symm)]

/-- Second delivery of the same raw state to the absolute handler is a
no-op emitting nothing. -/
lemma abs_idem (e : Encoder) (s : Nat) :
    rotary_absolute_encoder_irq (rotary_absolute_encoder_irq e s).1 s
      = ((rotary_absolute_encoder_irq e s).1, []) := by
  by_cases hne : s ≠ e.last_stable
  · unfold rotary_absolute_encoder_irq
    simp [hne]
  · unfold rotary_absolute_encoder_irq
    simp [hne]

/-- The half-period handler changes `last_stable` exactly when it reports. -/
lemma half_last_stable (e e₁ : Encoder) (s : Nat) (evs : List Ev)
    (h : rotary_encoder_half_period_irq e s = some (e₁, evs)) :
    (evs = [] → e₁.last_stable = e.last_stable)
      ∧ (evs ≠ [] → e₁.last_stable = s) := by
  unfold rotary_encoder_half_period_irq at h
  by_cases hodd : s % 2 = 1
  · rw [if_pos hodd] at h
    simp only [Option.some.injEq, Prod.mk.injEq] at h
    obtain ⟨rfl, rfl⟩ := h
    exact ⟨fun _ => rfl, fun hn => absurd rfl hn⟩
  · rw [if_neg hodd] at h
    by_cases hne : s ≠ e.last_stable
    · rw [if_pos hne] at h
      rcases hr : rotary_encoder_report_event e with _ | p
      · rw [hr] at h
        simp at h
      · rw [hr] at h
        simp only [Option.map_some', Option.some.injEq, Prod.mk.injEq] at h
        obtain ⟨rfl, rfl⟩ := h
        exact ⟨fun hnil => absurd hnil (report_event_ne_nil e p.1 p.2 hr),
               fun _ => rfl⟩
    · rw [if_neg hne] at h
      simp only [Option.some.injEq, Prod.mk.injEq] at h
      obtain ⟨rfl, rfl⟩ := h
      exact ⟨fun _ => rfl, fun hn => absurd rfl hn⟩

/-- The absolute handler changes `last_stable` exactly when it reports. -/
lemma abs_last_stable (e : Encoder) (s : Nat) :
    ((rotary_absolute_encoder_irq e s).2 = []
        → (rotary_absolute_encoder_irq e s).1.last_stable = e.last_stable)
      ∧ ((rotary_absolute_encoder_irq e s).2 ≠ []
        → (rotary_absolute_encoder_irq e s).1.last_stable = s) := by
  by_cases hne : s ≠ e.last_stable <;>
    unfold rotary_absolute_encoder_irq <;> simp [hne]

/-- For at least two gpio lines and no absolute flag, probe selection
reduces to the `steps_per_period >> (ndescs - 2)` dispatch. -/
lemma probe_select_quad (n spp : Nat) (h : 2 ≤ n) :
    rotary_encoder_probe_select n false spp
      = match spp >>> (n - 2) with
        | 4 => some DecodeMode.QuarterPeriod
        | 2 => some DecodeMode.HalfPeriod
        | 1 => some DecodeMode.FullPeriod
        | _ => none := by
  unfold rotary_encoder_probe_select
  rw [if_neg (by omega)]
  simp

/-! ### Claim theorems -/

/-- C1, counterexample: from the unarmed rest state the full-period handler
fed `00 → 10 → 00` does NOT emit zero events — the `0x2` sample arms and
the final `0x0` commits. -/
theorem C1_counterexample :
    (runSeq rotary_encoder_irq encFresh [0, 2, 0]).map Prod.snd ≠ some [] := by
  decide

/-- C1, amended: in FullPeriod mode, from an unarmed (relative-axis)
encoder, the sample sequence `00 → 10 → 00` with no mid-transition sample
emits exactly one event, committed with the encoder's current `dir` value
(0 on a freshly probed encoder) — the bounce is not rejected. -/
theorem C1_full_bounce_amended (e : Encoder) (h1 : e.armed = false)
    (h2 : e.relative_axis = true) :
    runSeq rotary_encoder_irq e [0, 2, 0] = some (e, [Ev.rel e.axis e.dir]) := by
  obtain ⟨st, ax, ra, ro, po, ar, di, ls⟩ := e
  simp only at h1 h2
  subst h1
  subst h2
  simp [runSeq, rotary_encoder_irq, rotary_encoder_report_event]

/-- C1, witness for the amended claim at the freshly probed encoder. -/
theorem C1_witness :
    runSeq rotary_encoder_irq encFresh [0, 2, 0]
      = some (encFresh, [Ev.rel 0 0]) :=
  C1_full_bounce_amended encFresh rfl rfl

/-- C2: full-period round trips.  From an unarmed relative-axis encoder,
`00 → 10 → 01` emits nothing yet; `00 → 10 → 01 → 00` emits exactly one
event of direction +1; `00 → 10 → 11 → 00` emits exactly one event of
direction −1; and on a mid-transition sample `0x1`/`0x3` while armed the
recorded direction is `2 - state`. -/
theorem C2_full_round_trip (e : Encoder) (h1 : e.armed = false)
    (h2 : e.relative_axis = true) :
    (runSeq rotary_encoder_irq e [0, 2, 1]).map Prod.snd = some []
    ∧ (runSeq rotary_encoder_irq e [0, 2, 1, 0]).map Prod.snd
        = some [Ev.rel e.axis 1]
    ∧ (runSeq rotary_encoder_irq e [0, 2, 3, 0]).map Prod.snd
        = some [Ev.rel e.axis (-1)]
    ∧ (∀ s, s = 1 ∨ s = 3 →
        rotary_encoder_irq { e with armed := true } s
          = some ({ e with armed := true, dir := 2 - (s : Int) }, [])) := by
  obtain ⟨st, ax, ra, ro, po, ar, di, ls⟩ := e
  simp only at h1 h2
  subst h1
  subst h2
  refine ⟨?_, ?_, ?_, ?_⟩
  · simp [runSeq, rotary_encoder_irq, rotary_encoder_report_event]
  · simp [runSeq, rotary_encoder_irq, rotary_encoder_report_event]
  · simp [runSeq, rotary_encoder_irq, rotary_encoder_report_event]
  · rintro s (rfl | rfl) <;> simp [rotary_encoder_irq]

/-- C2, witness at the freshly probed encoder. -/
theorem C2_witness :
    (runSeq rotary_encoder_irq encFresh [0, 2, 1, 0]).map Prod.snd
        = some [Ev.rel 0 1]
    ∧ (runSeq rotary_encoder_irq encFresh [0, 2, 3, 0]).map Prod.snd
        = some [Ev.rel 0 (-1)] :=
  ⟨(C2_full_round_trip encFresh rfl rfl).2.1,
   (C2_full_round_trip encFresh rfl rfl).2.2.1⟩

/-- C3, counterexample: in QuarterPeriod mode a non-adjacent sample
(`last_stable = 0`, sample `2`) emits no event yet DOES change
`last_stable`, so `last_stable` does not always equal the most recently
reported state. -/
theorem C3_counterexample :
    rotary_encoder_quarter_period_irq encFresh 2
        = some ({ encFresh with last_stable := 2 }, [])
    ∧ ({ encFresh with last_stable := 2 } : Encoder).last_stable
        ≠ encFresh.last_stable := by
  decide

/-- C3, amended: for HalfPeriod and Absolute, `last_stable` is unchanged by
a sample that emits no event and equals the sampled state when an event is
emitted; for QuarterPeriod, `last_stable` is set to the sampled state on
every invocation, whether or not an event was emitted. -/
theorem C3_last_stable_amended (e : Encoder) (s : Nat) :
    (∀ e₁ evs, rotary_encoder_half_period_irq e s = some (e₁, evs) →
        (evs = [] → e₁.last_stable = e.last_stable)
          ∧ (evs ≠ [] → e₁.last_stable = s))
    ∧ (∀ e₁ evs, rotary_encoder_quarter_period_irq e s = some (e₁, evs) →
        e₁.last_stable = s)
    ∧ ((rotary_absolute_encoder_irq e s).2 = []
        → (rotary_absolute_encoder_irq e s).1.last_stable = e.last_stable)
    ∧ ((rotary_absolute_encoder_irq e s).2 ≠ []
        → (rotary_absolute_encoder_irq e s).1.last_stable = s) :=
  ⟨fun e₁ evs h => half_last_stable e e₁ s evs h,
   fun e₁ evs h => quarter_sets_last e e₁ s evs h,
   (abs_last_stable e s).1, (abs_last_stable e s).2⟩

/-- C3, witness: the amended claim applied to the quarter-period handler at
`last_stable = 0`, sample `2`. -/
theorem C3_witness :
    ({ encFresh with last_stable := 2 } : Encoder).last_stable = 2 :=
  (C3_last_stable_amended encFresh 2).2.1
    { encFresh with last_stable := 2 } [] (by decide)

/-- C4 (code bug): the full-, half- and quarter-period handlers each
acquire and release the mutex exactly once and return with it free, but
`rotary_absolute_encoder_irq` acquires it TWICE and never releases it — its
second `mutex_lock` stands where the `mutex_unlock` belongs, so running its
lock operations from a free non-recursive mutex never reaches a clean
return. -/
theorem C4_lock_discipline :
    runLockTrace rotary_absolute_encoder_irq_lock_trace = none
    ∧ runLockTrace rotary_encoder_irq_lock_trace = some false
    ∧ runLockTrace rotary_encoder_half_period_irq_lock_trace = some false
    ∧ runLockTrace rotary_encoder_quarter_period_irq_lock_trace = some false := by
  decide

/-- C5, counterexample: probe rejects a single gpio line even with
`absolute_encoder` set — the `ndescs < 2` check precedes the absolute
branch, so the absolute path does not accept every `n ≥ 1`. -/
theorem C5_counterexample : rotary_encoder_probe_select 1 true 1 = none := by
  decide

/-- C5, amended: construction fails with `-EINVAL` whenever fewer than two
sensor lines are supplied, for quadrature AND absolute mode alike; with at
least two lines the absolute path is always accepted. -/
theorem C5_min_lines_amended (n spp : Nat) (b : Bool) :
    (n < 2 → rotary_encoder_probe_select n b spp = none)
    ∧ (2 ≤ n → rotary_encoder_probe_select n true spp
        = some DecodeMode.Absolute) := by
  constructor
  · intro h
    unfold rotary_encoder_probe_select
    rw [if_pos h]
  · intro h
    unfold rotary_encoder_probe_select
    rw [if_neg (by omega)]
    simp

/-- C5, witness for the amended claim. -/
theorem C5_witness :
    rotary_encoder_probe_select 1 false 4 = none
    ∧ rotary_encoder_probe_select 3 true 0 = some DecodeMode.Absolute :=
  ⟨(C5_min_lines_amended 1 4 false).1 (by decide),
   (C5_min_lines_amended 3 0 true).2 (by decide)⟩

/-- C7: with at least two lines, the absolute flag bypasses the ratio rule
entirely (any `steps_per_period` yields the absolute decoder), and
otherwise `steps_per_period >> (ndescs - 2)` equal to 4, 2 or 1 selects
quarter-, half- or full-period decoding while any other ratio (for example
`steps_per_period = 3` with two channels) is a configuration error. -/
theorem C7_mode_selection (n spp : Nat) (h : 2 ≤ n) :
    rotary_encoder_probe_select n true spp = some DecodeMode.Absolute
    ∧ (spp >>> (n - 2) = 4 →
        rotary_encoder_probe_select n false spp = some DecodeMode.QuarterPeriod)
    ∧ (spp >>> (n - 2) = 2 →
        rotary_encoder_probe_select n false spp = some DecodeMode.HalfPeriod)
    ∧ (spp >>> (n - 2) = 1 →
        rotary_encoder_probe_select n false spp = some DecodeMode.FullPeriod)
    ∧ (spp >>> (n - 2) ≠ 4 → spp >>> (n - 2) ≠ 2 → spp >>> (n - 2) ≠ 1 →
        rotary_encoder_probe_select n false spp = none)
    ∧ rotary_encoder_probe_select 2 false 3 = none := by
  refine ⟨?_, ?_, ?_, ?_, ?_, by decide⟩
  · unfold rotary_encoder_probe_select
    rw [if_neg (by omega)]
    simp
  · intro h4
    rw [probe_select_quad n spp h, h4]
  · intro h2
    rw [probe_select_quad n spp h, h2]
  · intro h1
    rw [probe_select_quad n spp h, h1]
  · intro h4 h2 h1
    rw [probe_select_quad n spp h]
    generalize hg : spp >>> (n - 2) = r
    rcases r with _ | _ | _ | _ | _ | m
    · rfl
    · exact absurd hg h1
    · exact absurd hg h2
    · rfl
    · exact absurd hg h4
    · rfl

/-- C7, witness: the three quadrature ratios and the absolute bypass at
concrete configurations. -/
theorem C7_witness :
    rotary_encoder_probe_select 2 false 4 = some DecodeMode.QuarterPeriod
    ∧ rotary_encoder_probe_select 2 false 2 = some DecodeMode.HalfPeriod
    ∧ rotary_encoder_probe_select 2 false 1 = some DecodeMode.FullPeriod
    ∧ rotary_encoder_probe_select 4 true 3 = some DecodeMode.Absolute :=
  ⟨(C7_mode_selection 2 4 (by decide)).2.1 (by decide),
   (C7_mode_selection 2 2 (by decide)).2.2.1 (by decide),
   (C7_mode_selection 2 1 (by decide)).2.2.2.1 (by decide),
   (C7_mode_selection 4 3 (by decide)).1⟩

/-- C8: delivering the very same sampled state a second time in a row
never emits an event on the second delivery, in every decode mode — the
second delivery is a no-op returning the unchanged encoder. -/
theorem C8_idempotent (e e₁ : Encoder) (s : Nat) (evs : List Ev) :
    (rotary_encoder_irq e s = some (e₁, evs) →
        rotary_encoder_irq e₁ s = some (e₁, []))
    ∧ (rotary_encoder_half_period_irq e s = some (e₁, evs) →
        rotary_encoder_half_period_irq e₁ s = some (e₁, []))
    ∧ (rotary_encoder_quarter_period_irq e s = some (e₁, evs) →
        rotary_encoder_quarter_period_irq e₁ s = some (e₁, []))
    ∧ rotary_absolute_encoder_irq (rotary_absolute_encoder_irq e s).1 s
        = ((rotary_absolute_encoder_irq e s).1, []) :=
  ⟨full_idem e e₁ s evs, half_idem e e₁ s evs,
   quarter_idem e e₁ s evs, abs_idem e s⟩

/-- C8, witness: a second `0x2` sample after the arming one is a no-op. -/
theorem C8_witness :
    rotary_encoder_irq encArmed 2 = some (encArmed, []) :=
  (C8_idempotent encFresh encArmed 2 []).1 (by decide)

/-- C6: in absolute-axis mode the committed position is exactly the
specification's update rule (add `steps` then conditionally decrement for
−1; increment iff `rollover` or `position < steps` for +1; reduce
`mod steps` under `rollover`), and the four concrete spec cases with
`steps = 4` hold on the code. -/
theorem C6_report_position (e : Encoder) (h1 : e.relative_axis = false)
    (h2 : e.dir = -1 ∨ e.dir = 1) (h3 : e.rollover = true → 0 < e.steps)
    (h4 : e.pos + e.steps + 1 < U32) :
    rotary_encoder_report_event e
      = some ({ e with pos := report_pos_spec e.rollover e.steps e.pos e.dir },
              [Ev.abs e.axis (report_pos_spec e.rollover e.steps e.pos e.dir)])
    ∧ (rotary_encoder_report_event (encAbs true 4 0 (-1))).map
        (fun p => p.1.pos) = some 3
    ∧ (rotary_encoder_report_event (encAbs true 4 3 1)).map
        (fun p => p.1.pos) = some 0
    ∧ (rotary_encoder_report_event (encAbs false 4 4 1)).map
        (fun p => p.1.pos) = some 4
    ∧ (rotary_encoder_report_event (encAbs false 4 0 (-1))).map
        (fun p => p.1.pos) = some 0 := by
  refine ⟨?_, by decide, by decide, by decide, by decide⟩
  obtain ⟨st, ax, ra, ro, po, ar, di, ls⟩ := e
  simp only at h1 h2 h3 h4
  subst h1
  have ha : u32add po st = po + st := u32add_eq po st (by omega)
  have hb : u32add po 1 = po + 1 := u32add_eq po 1 (by omega)
  rcases h2 with rfl | rfl <;> cases ro
  · simp [rotary_encoder_report_event, report_pos_spec]
  · have hst : ¬ (st = 0) := by
      have := h3 rfl
      omega
    simp [rotary_encoder_report_event, report_pos_spec, ha, hst]
  · simp [rotary_encoder_report_event, report_pos_spec, hb]
  · have hst : ¬ (st = 0) := by
      have := h3 rfl
      omega
    simp [rotary_encoder_report_event, report_pos_spec, hb, hst]

/-- C6, witness: the rollover wrap case `steps = 4`, `pos = 0`,
direction −1. -/
theorem C6_witness :
    rotary_encoder_report_event (encAbs true 4 0 (-1))
      = some ({ encAbs true 4 0 (-1) with pos := report_pos_spec true 4 0 (-1) },
              [Ev.abs 0 (report_pos_spec true 4 0 (-1))]) :=
  (C6_report_position (encAbs true 4 0 (-1)) rfl (Or.inl rfl)
    (fun _ => by decide) (by decide)).1

/-- C9: with rollover enabled in absolute-axis mode, the position update is
well defined exactly when `steps > 0`: at `steps = 0` the `pos %= steps`
is a division by zero (`none`), and for `steps > 0` the handler commits and
the committed position always lies in `[0, steps)`. -/
theorem C9_rollover_guard (e : Encoder) (h1 : e.relative_axis = false)
    (h2 : e.rollover = true) :
    (e.steps = 0 → rotary_encoder_report_event e = none)
    ∧ (0 < e.steps → rotary_encoder_report_event e ≠ none)
    ∧ (∀ e₁ evs, rotary_encoder_report_event e = some (e₁, evs) →
        e₁.pos < e.steps) := by
  obtain ⟨st, ax, ra, ro, po, ar, di, ls⟩ := e
  simp only at h1 h2 ⊢
  subst h1
  subst h2
  refine ⟨?_, ?_, ?_⟩
  · intro h0
    subst h0
    simp [rotary_encoder_report_event]
  · intro hpos
    have hst : ¬ (st = 0) := by omega
    simp [rotary_encoder_report_event, hst]
  · intro e₁ evs h
    by_cases hst : st = 0
    · subst hst
      simp [rotary_encoder_report_event] at h
    · unfold rotary_encoder_report_event at h
      simp only [Bool.false_eq_true, if_false, if_true, if_neg hst,
        Option.some.injEq, Prod.mk.injEq] at h
      obtain ⟨rfl, rfl⟩ := h
      exact Nat.mod_lt _ (Nat.pos_of_ne_zero hst)

/-- C9, witness: division by zero at `steps = 0`, well-defined at
`steps = 3`. -/
theorem C9_witness :
    rotary_encoder_report_event (encAbs true 0 5 1) = none
    ∧ rotary_encoder_report_event (encAbs true 3 7 1) ≠ none :=
  ⟨(C9_rollover_guard (encAbs true 0 5 1) rfl rfl).1 rfl,
   (C9_rollover_guard (encAbs true 3 7 1) rfl rfl).2.1 (by decide)⟩

/-- C10: on an odd sample the half-period handler stores
`((last_stable - state + 1) mod 4) - 1`, whose range is `{-1, 0, 1, 2}`;
when `last_stable` and the sample are not mod-4 adjacent the stored
direction is 0 or 2 (for example `last_stable = 3`, sample `1` gives 2),
and the next committed event then carries that non-unit direction. -/
theorem C10_half_direction (ls s : Nat) (hls : ls < 4) (hs : s < 4)
    (hodd : s % 2 = 1) :
    (∀ e : Encoder, e.last_stable = ls →
        rotary_encoder_half_period_irq e s
          = some ({ e with dir := half_dir ls s }, []))
    ∧ half_dir ls s = ((ls : Int) - (s : Int) + 1) % 4 - 1
    ∧ (half_dir ls s = -1 ∨ half_dir ls s = 0 ∨ half_dir ls s = 1
        ∨ half_dir ls s = 2)
    ∧ (¬ adj4 ls s → half_dir ls s = 0 ∨ half_dir ls s = 2)
    ∧ half_dir 3 1 = 2
    ∧ (runSeq rotary_encoder_half_period_irq
        { encFresh with last_stable := 3 } [1, 0]).map Prod.snd
        = some [Ev.rel 0 2] := by
  refine ⟨?_, ?_, ?_, ?_, by decide, by decide⟩
  · intro e he
    unfold rotary_encoder_half_period_irq
    rw [if_pos hodd, he]
  · interval_cases ls <;> interval_cases s <;> decide
  · interval_cases ls <;> interval_cases s <;> decide
  · interval_cases ls <;> interval_cases s <;> decide

/-- C10, witness: the non-adjacent pair `last_stable = 3`, sample `1`
yields a direction in `{0, 2}`. -/
theorem C10_witness : half_dir 3 1 = 0 ∨ half_dir 3 1 = 2 :=
  (C10_half_direction 3 1 (by decide) (by decide) (by decide)).2.2.2.1
    (by decide)
